import Mathlib

/-!
Shallow embedding of the `vexide-motorgroup` crate (`src/lib.rs`).

Modelling conventions:
* A single motor's behaviour on one call is an oracle outcome supplied as data:
  `Except MotorError v` for a fallible read returning `v`, `Option MotorError`
  for a fallible write (`none` = success, `some e` = failure).
* Rust `f64` quantities are modelled as `ℚ` (exact arithmetic stands in for
  floating point; the claims are about which branch runs and what is divided
  by what, not about rounding).
* A Rust panic (the `assert!` in the `MotorGroupError` constructors, the empty
  check in `MotorGroup::new`, the `unwrap` in `max_voltage`) is modelled as an
  `Option` returning `none`.
* Each fan-out loop is instrumented with the number of devices it invoked
  (the ghost `attempted` count), so that "devices after index i are never
  invoked" is statable: the loops walk the device list front to back, so the
  set of invoked devices is exactly the prefix of that length.
-/

/-- Decidable equality for `Except`, used to evaluate concrete outcomes. -/
def exceptDecEq {ε α : Type} [DecidableEq ε] [DecidableEq α] :
    (a b : Except ε α) → Decidable (a = b)
  | Except.ok a, Except.ok b =>
    match decEq a b with
    | isTrue h => isTrue (h ▸ rfl)
    | isFalse h => isFalse fun hh => h (Except.ok.inj hh)
  | Except.ok _, Except.error _ => isFalse fun hh => Except.noConfusion hh
  | Except.error _, Except.ok _ => isFalse fun hh => Except.noConfusion hh
  | Except.error a, Except.error b =>
    match decEq a b with
    | isTrue h => isTrue (h ▸ rfl)
    | isFalse h => isFalse fun hh => h (Except.error.inj hh)

instance {ε α : Type} [DecidableEq ε] [DecidableEq α] : DecidableEq (Except ε α) :=
  exceptDecEq

/-- Model of `vexide::devices::smart::motor::MotorError`: an external error type;
only the variants the crate matches on are distinguished, the rest are `Other`. -/
inductive MotorError where
  | Busy : MotorError
  | Port (source : Nat) : MotorError
  | SetGearsetExp : MotorError
  | Other (code : Nat) : MotorError
deriving DecidableEq, Repr

/-- Model of `MotorGroupError<T>`: the list of per-motor errors plus an optional
partial result. The non-emptiness invariant is enforced by the constructors
below, not by the type. -/
structure MotorGroupError (T : Type) where
  errors : List MotorError
  result : Option T
deriving DecidableEq, Repr

namespace MotorGroupError

/-- `MotorGroupError::new` (lib.rs:130): asserts the error list is non-empty
(`none` models the panic), sets `result` to `None`. -/
def new (errors : List MotorError) : Option (MotorGroupError Unit) :=
  if errors = [] then none
  else some ⟨errors, none⟩

/-- `MotorGroupError::with_result` (lib.rs:143): same non-empty assertion,
attaches a computed partial result. -/
def with_result {T : Type} (errors : List MotorError) (result : T) :
    Option (MotorGroupError T) :=
  if errors = [] then none
  else some ⟨errors, some result⟩

/-- `MotorGroupError::with_empty_result` (lib.rs:154): same non-empty
assertion, `result` left `None`. -/
def with_empty_result {T : Type} (errors : List MotorError) :
    Option (MotorGroupError T) :=
  if errors = [] then none
  else some ⟨errors, none⟩

/-- `MotorGroupError::first` (lib.rs:175): indexes `errors[0]`; the `none`
case models the out-of-bounds panic, unreachable under the invariant. -/
def first {T : Type} (g : MotorGroupError T) : Option MotorError :=
  g.errors[0]?

/-- The `From<MotorGroupError> for MotorError` impl (lib.rs:200):
`errors.into_iter().next().unwrap()`; `none` models the `unwrap` panic. -/
def toSingle (g : MotorGroupError Unit) : Option MotorError :=
  g.errors.head?

/-- `MotorGroupError::has_busy_error` (lib.rs:183). -/
def has_busy_error {T : Type} (g : MotorGroupError T) : Bool :=
  g.errors.any fun e => match e with
    | .Busy => true
    | _ => false

/-- `MotorGroupError::has_port_error` (lib.rs:193). -/
def has_port_error {T : Type} (g : MotorGroupError T) : Bool :=
  g.errors.any fun e => match e with
    | .Port _ => true
    | _ => false

end MotorGroupError

/-- Model of `WriteErrorStrategy` (lib.rs:220). -/
inductive WriteErrorStrategy where
  | Ignore : WriteErrorStrategy
  | Stop : WriteErrorStrategy
deriving DecidableEq, Repr

/-- Model of `MotorGroup<M>` (lib.rs:249): an ordered motor collection plus the
write strategy; the motor type is abstract (`α`), since `Motor` is external. -/
structure MotorGroup (α : Type) where
  motors : List α
  write_error_strategy : WriteErrorStrategy

/-- `MotorGroup::new` (lib.rs:281): asserts the collection is non-empty
(`none` models the panic); the strategy defaults to `Ignore`. -/
def MotorGroup.new {α : Type} (motors : List α) : Option (MotorGroup α) :=
  if motors.isEmpty then none
  else some ⟨motors, WriteErrorStrategy.Ignore⟩

/-- `MotorGroup::write_error_strategy` setter (lib.rs:303). -/
def MotorGroup.set_strategy {α : Type} (g : MotorGroup α)
    (mode : WriteErrorStrategy) : MotorGroup α :=
  { g with write_error_strategy := mode }

/-- The write fan-out loop body shared by `set_target`, `brake`, `set_velocity`,
`set_voltage`, `set_position_target`, `set_profiled_velocity`, `set_gearset`,
`reset_position`, `set_position`, `set_current_limit`, `set_voltage_limit`,
`set_direction` (e.g. lib.rs:335-350): walk the outcomes in order, collect
errors, and under `Stop` break right after the first failure. Returns the
collected error list and the number of devices invoked. -/
def writeGo (strategy : WriteErrorStrategy) :
    List (Option MotorError) → List MotorError × Nat
  | [] => ([], 0)
  | none :: rest =>
      let r := writeGo strategy rest
      (r.1, r.2 + 1)
  | some e :: rest =>
      if strategy = WriteErrorStrategy.Stop then ([e], 1)
      else
        let r := writeGo strategy rest
        (e :: r.1, r.2 + 1)

/-- A write operation over per-device outcomes: after the loop, success when no
errors, otherwise `Err(MotorGroupError::new(errors))` (lib.rs:345-349). The
`Nat` is the ghost invoked-device count; the outer `Option` models the panic
inside the constructor (never hit: the list is non-empty in that branch). -/
def writeOp (strategy : WriteErrorStrategy) (outcomes : List (Option MotorError)) :
    Option (Nat × Except (MotorGroupError Unit) Unit) :=
  let r := writeGo strategy outcomes
  if r.1 = [] then some (r.2, Except.ok ())
  else (MotorGroupError.new r.1).map fun g => (r.2, Except.error g)

/-- Accumulator of the numeric-read loop: collected errors, running sum,
success count, and the ghost invoked-device count. -/
structure ReadAcc where
  errors : List MotorError
  sum : ℚ
  count : Nat
  attempted : Nat
deriving DecidableEq, Repr

/-- The numeric-read loop shared by `velocity`, `power`, `torque`, `voltage`,
`position`, `current`, `efficiency`, `temperature` (e.g. lib.rs:783-791):
every device is visited; successes are summed and counted, failures are
collected in order. -/
def readGo : List (Except MotorError ℚ) → ReadAcc
  | [] => ⟨[], 0, 0, 0⟩
  | Except.ok v :: rest =>
      let r := readGo rest
      ⟨r.errors, v + r.sum, r.count + 1, r.attempted + 1⟩
  | Except.error e :: rest =>
      let r := readGo rest
      ⟨e :: r.errors, r.sum, r.count, r.attempted + 1⟩

/-- A numeric read over per-device outcomes (lib.rs:792-798): no errors gives
`Ok(sum / count)`; some errors with at least one success gives
`with_result(errors, sum / count)`; all failed gives
`with_empty_result(errors)`. The `Nat` is the ghost invoked-device count. -/
def numericRead (outcomes : List (Except MotorError ℚ)) :
    Option (Nat × Except (MotorGroupError ℚ) ℚ) :=
  let r := readGo outcomes
  if r.errors = [] then some (r.attempted, Except.ok (r.sum / (r.count : ℚ)))
  else if 0 < r.count then
    (MotorGroupError.with_result r.errors (r.sum / (r.count : ℚ))).map
      fun g => (r.attempted, Except.error g)
  else
    (MotorGroupError.with_empty_result r.errors).map
      fun g => (r.attempted, Except.error g)

/-- The boolean-flag read loop shared by `is_over_temperature`,
`is_over_current`, `is_driver_fault`, `is_driver_over_current`
(e.g. lib.rs:1326-1340): `Ok(true)` returns immediately; errors are collected
and the scan continues; `Ok(false)` is skipped. After the loop, `Ok(false)`
when no errors, else `Err(MotorGroupError::new(errors))`. -/
def boolGo (errors : List MotorError) (attempted : Nat) :
    List (Except MotorError Bool) → Option (Nat × Except (MotorGroupError Unit) Bool)
  | [] =>
      if errors = [] then some (attempted, Except.ok false)
      else (MotorGroupError.new errors).map fun g => (attempted, Except.error g)
  | Except.ok true :: _ => some (attempted + 1, Except.ok true)
  | Except.ok false :: rest => boolGo errors (attempted + 1) rest
  | Except.error e :: rest => boolGo (errors ++ [e]) (attempted + 1) rest

/-- A boolean-flag read over per-device outcomes; the `Nat` is the ghost
invoked-device count. -/
def boolRead (outcomes : List (Except MotorError Bool)) :
    Option (Nat × Except (MotorGroupError Unit) Bool) :=
  boolGo [] 0 outcomes

/-- `reduce(f64::max)` over a list (lib.rs:708): `none` on an empty list. -/
def reduceMax : List ℚ → Option ℚ
  | [] => none
  | x :: rest => some (rest.foldl max x)

/-- `MotorGroup::max_voltage` (lib.rs:703-710): maps each motor through its
non-failing `max_voltage` accessor and reduces with max; the `unwrap` panic on
an empty group is the `none` case. -/
def MotorGroup.maxVoltageOp {α : Type} (g : MotorGroup α) (mv : α → ℚ) : Option ℚ :=
  reduceMax (g.motors.map mv)

/-- A numeric read at group level: iterate `self.motors`, calling the
per-device read on each (lib.rs:783). The strategy field is never consulted. -/
def MotorGroup.numericReadOp {α : Type} (g : MotorGroup α)
    (read : α → Except MotorError ℚ) :
    Option (Nat × Except (MotorGroupError ℚ) ℚ) :=
  numericRead (g.motors.map read)

/-- A boolean-flag read at group level (lib.rs:1328). The strategy field is
never consulted. -/
def MotorGroup.boolReadOp {α : Type} (g : MotorGroup α)
    (flag : α → Except MotorError Bool) :
    Option (Nat × Except (MotorGroupError Unit) Bool) :=
  boolRead (g.motors.map flag)

/-- A write at group level (lib.rs:337): iterate `self.motors` under the
group's stored `write_error_strategy`. -/
def MotorGroup.writeFanout {α : Type} (g : MotorGroup α)
    (write : α → Option MotorError) :
    Option (Nat × Except (MotorGroupError Unit) Unit) :=
  writeOp g.write_error_strategy (g.motors.map write)

/-- Spec-side view: the errors of a list of outcomes, in device order. -/
def errorsOf {α : Type} : List (Except MotorError α) → List MotorError
  | [] => []
  | Except.ok _ :: rest => errorsOf rest
  | Except.error e :: rest => e :: errorsOf rest

/-- Spec-side view: the successfully read values, in device order. -/
def successValues {α : Type} : List (Except MotorError α) → List α
  | [] => []
  | Except.ok v :: rest => v :: successValues rest
  | Except.error _ :: rest => successValues rest

/-- Spec-side view: the failures of a list of write outcomes, in device order. -/
def someErrors : List (Option MotorError) → List MotorError
  | [] => []
  | none :: rest => someErrors rest
  | some e :: rest => e :: someErrors rest

theorem someErrors_append (l l' : List (Option MotorError)) :
    someErrors (l ++ l') = someErrors l ++ someErrors l' := by
  induction l with
  | nil => rfl
  | cons o rest ih => cases o <;> simp [someErrors, ih]

theorem someErrors_of_all_none (l : List (Option MotorError))
    (h : ∀ x ∈ l, x = none) : someErrors l = [] := by
  induction l with
  | nil => rfl
  | cons o rest ih =>
    have ho := h o (List.mem_cons_self o rest)
    subst ho
    exact ih fun x hx => h x (List.mem_cons_of_mem _ hx)

theorem writeGo_ignore_eq (outcomes : List (Option MotorError)) :
    writeGo WriteErrorStrategy.Ignore outcomes = (someErrors outcomes, outcomes.length) := by
  induction outcomes with
  | nil => rfl
  | cons o rest ih => cases o <;> simp [writeGo, someErrors, ih]

theorem writeGo_stop_eq (pre : List (Option MotorError)) (hpre : ∀ x ∈ pre, x = none)
    (e : MotorError) (post : List (Option MotorError)) :
    writeGo WriteErrorStrategy.Stop (pre ++ some e :: post) = ([e], pre.length + 1) := by
  induction pre with
  | nil => simp [writeGo]
  | cons o rest ih =>
    have ho := hpre o (List.mem_cons_self o rest)
    subst ho
    have ih' := ih fun x hx => hpre x (List.mem_cons_of_mem _ hx)
    simp [writeGo, ih']

theorem readGo_eq (outcomes : List (Except MotorError ℚ)) :
    readGo outcomes =
      ⟨errorsOf outcomes, (successValues outcomes).sum,
        (successValues outcomes).length, outcomes.length⟩ := by
  induction outcomes with
  | nil => rfl
  | cons o rest ih => cases o <;> simp [readGo, errorsOf, successValues, ih]

theorem length_eq_success_add_errors {α : Type} (outcomes : List (Except MotorError α)) :
    outcomes.length = (successValues outcomes).length + (errorsOf outcomes).length := by
  induction outcomes with
  | nil => rfl
  | cons o rest ih => cases o <;> simp [successValues, errorsOf, ih] <;> omega

theorem boolGo_first_true (pre : List (Except MotorError Bool))
    (hpre : ∀ o ∈ pre, o ≠ Except.ok true) (post : List (Except MotorError Bool))
    (errs : List MotorError) (att : Nat) :
    boolGo errs att (pre ++ Except.ok true :: post) =
      some (att + pre.length + 1, Except.ok true) := by
  induction pre generalizing errs att with
  | nil => simp [boolGo]
  | cons o rest ih =>
    have ihp : ∀ x ∈ rest, x ≠ Except.ok true :=
      fun x hx => hpre x (List.mem_cons_of_mem _ hx)
    match o with
    | Except.ok true => exact absurd rfl (hpre _ (List.mem_cons_self _ _))
    | Except.ok false =>
      have ih' := ih ihp errs (att + 1)
      have harith : att + 1 + rest.length + 1 = att + (rest.length + 1) + 1 := by omega
      rw [harith] at ih'
      simpa [boolGo] using ih'
    | Except.error e =>
      have ih' := ih ihp (errs ++ [e]) (att + 1)
      have harith : att + 1 + rest.length + 1 = att + (rest.length + 1) + 1 := by omega
      rw [harith] at ih'
      simpa [boolGo] using ih'

theorem boolGo_no_true (outcomes : List (Except MotorError Bool))
    (h : ∀ o ∈ outcomes, o ≠ Except.ok true) (errs : List MotorError) (att : Nat) :
    boolGo errs att outcomes =
      if errs ++ errorsOf outcomes = [] then
        some (att + outcomes.length, Except.ok false)
      else
        (MotorGroupError.new (errs ++ errorsOf outcomes)).map
          fun g => (att + outcomes.length, Except.error g) := by
  induction outcomes generalizing errs att with
  | nil => simp [boolGo, errorsOf]
  | cons o rest ih =>
    have ihp : ∀ x ∈ rest, x ≠ Except.ok true :=
      fun x hx => h x (List.mem_cons_of_mem _ hx)
    match o with
    | Except.ok true => exact absurd rfl (h _ (List.mem_cons_self _ _))
    | Except.ok false =>
      have ih' := ih ihp errs (att + 1)
      have harith : att + 1 + rest.length = att + (rest.length + 1) := by omega
      rw [harith] at ih'
      simpa [boolGo, errorsOf] using ih'
    | Except.error e =>
      have ih' := ih ihp (errs ++ [e]) (att + 1)
      have harith : att + 1 + rest.length = att + (rest.length + 1) := by omega
      rw [harith] at ih'
      simpa [boolGo, errorsOf, List.append_assoc] using ih'

theorem numericRead_total (outcomes : List (Except MotorError ℚ)) :
    ∃ res, numericRead outcomes = some (outcomes.length, res) := by
  by_cases he : errorsOf outcomes = []
  · refine ⟨Except.ok ((successValues outcomes).sum /
      ((successValues outcomes).length : ℚ)), ?_⟩
    simp [numericRead, readGo_eq, he]
  · by_cases hc : 0 < (successValues outcomes).length
    · refine ⟨Except.error ⟨errorsOf outcomes,
        some ((successValues outcomes).sum / ((successValues outcomes).length : ℚ))⟩, ?_⟩
      simp [numericRead, readGo_eq, he, hc, MotorGroupError.with_result]
    · refine ⟨Except.error ⟨errorsOf outcomes, none⟩, ?_⟩
      simp [numericRead, readGo_eq, he, hc, MotorGroupError.with_empty_result]

/-- Claim C1: a numeric read returns the average of all values on full
success; on partial failure it returns an error whose result is the average
of the successfully read values and whose error list has one entry per
failing device; on total failure the result is empty and the error list has
one entry per device. -/
theorem numeric_read_aggregation (outcomes : List (Except MotorError ℚ)) :
    (errorsOf outcomes = [] →
      numericRead outcomes =
        some (outcomes.length,
          Except.ok ((successValues outcomes).sum / (outcomes.length : ℚ)))) ∧
    (errorsOf outcomes ≠ [] → successValues outcomes ≠ [] →
      ∃ mg, numericRead outcomes = some (outcomes.length, Except.error mg) ∧
        mg.result = some ((successValues outcomes).sum /
          ((successValues outcomes).length : ℚ)) ∧
        mg.errors.length = (errorsOf outcomes).length) ∧
    (errorsOf outcomes ≠ [] → successValues outcomes = [] →
      ∃ mg, numericRead outcomes = some (outcomes.length, Except.error mg) ∧
        mg.result = (none : Option ℚ) ∧
        mg.errors.length = outcomes.length) := by
  refine ⟨?_, ?_, ?_⟩
  · intro he
    have hl := length_eq_success_add_errors outcomes
    rw [he] at hl
    simp only [List.length_nil, Nat.add_zero] at hl
    simp [numericRead, readGo_eq, he, hl]
  · intro he hs
    have hc : 0 < (successValues outcomes).length := List.length_pos.mpr hs
    refine ⟨⟨errorsOf outcomes,
      some ((successValues outcomes).sum / ((successValues outcomes).length : ℚ))⟩,
      ?_, rfl, rfl⟩
    simp [numericRead, readGo_eq, he, hc, MotorGroupError.with_result]
  · intro he hs
    have hl := length_eq_success_add_errors outcomes
    rw [hs] at hl
    simp only [List.length_nil, Nat.zero_add] at hl
    refine ⟨⟨errorsOf outcomes, none⟩, ?_, rfl, ?_⟩
    · simp [numericRead, readGo_eq, he, hs, MotorGroupError.with_empty_result]
    · simp [hl]

/-- Concrete instances of the three branches of `numeric_read_aggregation`. -/
theorem numeric_read_aggregation_witness :
    numericRead [Except.ok 3] = some (1, Except.ok (3 : ℚ)) ∧
    (∃ mg, numericRead [Except.ok 4, Except.error MotorError.Busy]
        = some (2, Except.error mg) ∧
      mg.result = some (4 : ℚ) ∧ mg.errors.length = 1) ∧
    (∃ mg, numericRead [Except.error MotorError.Busy]
        = some (1, Except.error mg) ∧
      mg.result = (none : Option ℚ) ∧ mg.errors.length = 1) := by
  refine ⟨?_, ?_, ?_⟩
  · have h := (numeric_read_aggregation [Except.ok 3]).1 (by decide)
    simpa [successValues] using h
  · obtain ⟨mg, h1, h2, h3⟩ :=
      (numeric_read_aggregation [Except.ok 4, Except.error MotorError.Busy]).2.1
        (by decide) (by decide)
    exact ⟨mg, by simpa using h1, by simpa [successValues] using h2,
      by simpa [errorsOf] using h3⟩
  · obtain ⟨mg, h1, h2, h3⟩ :=
      (numeric_read_aggregation [Except.error MotorError.Busy]).2.2
        (by decide) (by decide)
    exact ⟨mg, by simpa using h1, h2, by simpa using h3⟩

theorem someErrors_map_none {α : Type} (l : List α) (write : α → Option MotorError)
    (h : ∀ x ∈ l, write x = none) : someErrors (l.map write) = [] :=
  someErrors_of_all_none _ fun x hx => by
    obtain ⟨a, ha, rfl⟩ := List.mem_map.mp hx
    exact h a ha

/-- Claim C2: under the `Stop` strategy, a write halts right after the first
failing device: with every device before `m` succeeding and `m` failing with
`e`, exactly the first `pre.length + 1` devices are invoked (so the devices
after `m` are never invoked) and the error list is `[e]`. -/
theorem write_stop_halts_at_first_failure {α : Type} (g : MotorGroup α)
    (write : α → Option MotorError) (pre : List α) (m : α) (post : List α)
    (e : MotorError) (hs : g.write_error_strategy = WriteErrorStrategy.Stop)
    (hm : g.motors = pre ++ m :: post)
    (hpre : ∀ x ∈ pre, write x = none) (he : write m = some e) :
    g.writeFanout write = some (pre.length + 1, Except.error ⟨[e], none⟩) := by
  have hpremap : ∀ x ∈ pre.map write, x = none := by
    intro x hx
    obtain ⟨a, ha, rfl⟩ := List.mem_map.mp hx
    exact hpre a ha
  have hmap : g.motors.map write = pre.map write ++ some e :: post.map write := by
    simp [hm, he]
  unfold MotorGroup.writeFanout writeOp
  rw [hs, hmap, writeGo_stop_eq (pre.map write) hpremap e (post.map write)]
  simp [MotorGroupError.new]

/-- Concrete instance of `write_stop_halts_at_first_failure`: three devices,
the middle one fails, only two are invoked. -/
theorem write_stop_halts_witness :
    (MotorGroup.mk [0, 1, 2] WriteErrorStrategy.Stop : MotorGroup Nat).writeFanout
        (fun i => if i = 1 then some MotorError.Busy else none)
      = some (2, Except.error ⟨[MotorError.Busy], none⟩) := by
  have h := write_stop_halts_at_first_failure
      (MotorGroup.mk [0, 1, 2] WriteErrorStrategy.Stop)
      (fun i => if i = 1 then some MotorError.Busy else none)
      [0] 1 [2] MotorError.Busy rfl rfl (by decide) (by decide)
  simpa using h

/-- Claim C3: under the `Ignore` strategy, a write with exactly two failing
devices invokes every device (the invoked count is the whole group size) and
returns the two errors in device order. -/
theorem write_ignore_attempts_all {α : Type} (g : MotorGroup α)
    (write : α → Option MotorError) (pre mid post : List α) (m1 m2 : α)
    (e1 e2 : MotorError)
    (hs : g.write_error_strategy = WriteErrorStrategy.Ignore)
    (hm : g.motors = pre ++ m1 :: (mid ++ m2 :: post))
    (hpre : ∀ x ∈ pre, write x = none) (hmid : ∀ x ∈ mid, write x = none)
    (hpost : ∀ x ∈ post, write x = none)
    (h1 : write m1 = some e1) (h2 : write m2 = some e2) :
    g.writeFanout write = some (g.motors.length, Except.error ⟨[e1, e2], none⟩) := by
  have hz1 := someErrors_map_none pre write hpre
  have hz2 := someErrors_map_none mid write hmid
  have hz3 := someErrors_map_none post write hpost
  have hse : someErrors (g.motors.map write) = [e1, e2] := by
    simp [hm, someErrors_append, someErrors, h1, h2, hz1, hz2, hz3]
  unfold MotorGroup.writeFanout writeOp
  rw [hs, writeGo_ignore_eq, hse]
  simp [MotorGroupError.new]

/-- Concrete instance of `write_ignore_attempts_all`: five devices, devices 1
and 3 fail, all five are invoked and both errors are reported in order. -/
theorem write_ignore_attempts_all_witness :
    (MotorGroup.mk [0, 1, 2, 3, 4] WriteErrorStrategy.Ignore : MotorGroup Nat).writeFanout
        (fun i => if i = 1 then some MotorError.Busy
          else if i = 3 then some (MotorError.Port 7) else none)
      = some (5, Except.error ⟨[MotorError.Busy, MotorError.Port 7], none⟩) := by
  have h := write_ignore_attempts_all
      (MotorGroup.mk [0, 1, 2, 3, 4] WriteErrorStrategy.Ignore)
      (fun i => if i = 1 then some MotorError.Busy
        else if i = 3 then some (MotorError.Port 7) else none)
      [0] [2] [4] 1 3 MotorError.Busy (MotorError.Port 7)
      rfl rfl (by decide) (by decide) (by decide) (by decide) (by decide)
  simpa using h

/-- Claim C4: a boolean-flag read returns `Ok(true)` as soon as a device
reports `true`: with no device before `m` reporting `true` (they may fail or
report `false`) and `m` reporting `true`, exactly the first `pre.length + 1`
devices are invoked and the call returns `Ok(true)`; earlier errors do not
cause a failure return. -/
theorem bool_read_short_circuits {α : Type} (g : MotorGroup α)
    (flag : α → Except MotorError Bool) (pre : List α) (m : α) (post : List α)
    (hm : g.motors = pre ++ m :: post)
    (hpre : ∀ x ∈ pre, flag x ≠ Except.ok true) (hk : flag m = Except.ok true) :
    g.boolReadOp flag = some (pre.length + 1, Except.ok true) := by
  have hpremap : ∀ o ∈ pre.map flag, o ≠ Except.ok true := by
    intro o ho
    obtain ⟨a, ha, rfl⟩ := List.mem_map.mp ho
    exact hpre a ha
  have h := boolGo_first_true (pre.map flag) hpremap (post.map flag) [] 0
  unfold MotorGroup.boolReadOp boolRead
  rw [hm]
  simpa [hk] using h

/-- Concrete instance of `bool_read_short_circuits`: the first device errors,
the second reports true, the third is never invoked. -/
theorem bool_read_short_circuits_witness :
    (MotorGroup.mk [0, 1, 2] WriteErrorStrategy.Ignore : MotorGroup Nat).boolReadOp
        (fun i => if i = 0 then Except.error MotorError.Busy
          else if i = 1 then Except.ok true else Except.ok false)
      = some (2, Except.ok true) := by
  have h := bool_read_short_circuits
      (MotorGroup.mk [0, 1, 2] WriteErrorStrategy.Ignore)
      (fun i => if i = 0 then Except.error MotorError.Busy
        else if i = 1 then Except.ok true else Except.ok false)
      [0] 1 [2] rfl (by decide) (by decide)
  simpa using h

/-- Claim C5: when no device reports `true`, a boolean-flag read invokes every
device and returns `Ok(false)` when none errored, and otherwise fails with an
aggregate built by the result-less constructor `new`, carrying exactly the
erroring devices' errors in device order and no result value. -/
theorem bool_read_no_true_aggregates {α : Type} (g : MotorGroup α)
    (flag : α → Except MotorError Bool)
    (hno : ∀ x ∈ g.motors, flag x ≠ Except.ok true) :
    (errorsOf (g.motors.map flag) = [] →
      g.boolReadOp flag = some (g.motors.length, Except.ok false)) ∧
    (errorsOf (g.motors.map flag) ≠ [] →
      ∃ mg, g.boolReadOp flag = some (g.motors.length, Except.error mg) ∧
        MotorGroupError.new (errorsOf (g.motors.map flag)) = some mg ∧
        mg.errors = errorsOf (g.motors.map flag) ∧ mg.result = none) := by
  have hmap : ∀ o ∈ g.motors.map flag, o ≠ Except.ok true := by
    intro o ho
    obtain ⟨a, ha, rfl⟩ := List.mem_map.mp ho
    exact hno a ha
  have h := boolGo_no_true (g.motors.map flag) hmap [] 0
  simp only [List.nil_append, Nat.zero_add] at h
  constructor
  · intro he
    unfold MotorGroup.boolReadOp boolRead
    rw [h]
    simp [he]
  · intro he
    refine ⟨⟨errorsOf (g.motors.map flag), none⟩, ?_, ?_, rfl, rfl⟩
    · unfold MotorGroup.boolReadOp boolRead
      rw [h]
      simp [he, MotorGroupError.new]
    · simp [MotorGroupError.new, he]

/-- Concrete instances of both branches of `bool_read_no_true_aggregates`. -/
theorem bool_read_no_true_witness :
    (MotorGroup.mk [0, 1] WriteErrorStrategy.Ignore : MotorGroup Nat).boolReadOp
        (fun _ => Except.ok false) = some (2, Except.ok false) ∧
    (∃ mg, (MotorGroup.mk [0, 1] WriteErrorStrategy.Ignore : MotorGroup Nat).boolReadOp
        (fun i => if i = 0 then Except.error (MotorError.Port 3) else Except.ok false)
      = some (2, Except.error mg) ∧
      mg.errors = [MotorError.Port 3] ∧ mg.result = none) := by
  constructor
  · have h := (bool_read_no_true_aggregates
        (MotorGroup.mk [0, 1] WriteErrorStrategy.Ignore)
        (fun _ => Except.ok false) (by decide)).1 (by decide)
    simpa using h
  · obtain ⟨mg, h1, h2, h3, h4⟩ := (bool_read_no_true_aggregates
        (MotorGroup.mk [0, 1] WriteErrorStrategy.Ignore)
        (fun i => if i = 0 then Except.error (MotorError.Port 3) else Except.ok false)
        (by decide)).2 (by decide)
    refine ⟨mg, by simpa using h1, ?_, h4⟩
    rw [h3]
    decide

/-- Claim C6: constructing a group from an empty device collection, and
constructing an aggregate error from an empty error list through any of the
three constructors, is a fatal precondition violation (the modelled panic),
never a normal return. -/
theorem empty_construction_panics :
    (∀ (α : Type), MotorGroup.new ([] : List α) = none) ∧
    MotorGroupError.new [] = none ∧
    (∀ (T : Type) (r : T), MotorGroupError.with_result [] r = none) ∧
    (∀ (T : Type),
      (MotorGroupError.with_empty_result [] : Option (MotorGroupError T)) = none) :=
  ⟨fun _ => rfl, rfl, fun _ _ => rfl, fun _ => rfl⟩

/-- Concrete instances of `empty_construction_panics`. -/
theorem empty_construction_panics_witness :
    MotorGroup.new ([] : List Nat) = none ∧
    MotorGroupError.new [] = none ∧
    MotorGroupError.with_result ([] : List MotorError) (0 : ℚ) = none ∧
    (MotorGroupError.with_empty_result [] : Option (MotorGroupError Unit)) = none :=
  ⟨empty_construction_panics.1 Nat, empty_construction_panics.2.1,
    empty_construction_panics.2.2.1 ℚ 0, empty_construction_panics.2.2.2 Unit⟩

/-- Claim C7 counterexample: a boolean-flag read short-circuits on the first
`true`, so on a two-device group whose first device reports `true` only one
device is invoked — under either strategy — refuting "both runs attempt every
device". -/
theorem reads_attempt_all_counterexample :
    (MotorGroup.mk [0, 1] WriteErrorStrategy.Ignore : MotorGroup Nat).boolReadOp
        (fun i => Except.ok (decide (i = 0))) = some (1, Except.ok true) ∧
    (MotorGroup.mk [0, 1] WriteErrorStrategy.Stop : MotorGroup Nat).boolReadOp
        (fun i => Except.ok (decide (i = 0))) = some (1, Except.ok true) ∧
    (MotorGroup.mk [0, 1] WriteErrorStrategy.Ignore : MotorGroup Nat).motors.length
      = 2 :=
  ⟨rfl, rfl, rfl⟩

/-- Claim C7 (amended): the write strategy never affects reads — two groups
with the same motors give identical numeric and boolean-flag read results;
a numeric read always invokes every device regardless of failures; a
boolean-flag read invokes every device whenever no device reports `true`
(failures never cut the scan short, only a `true` does). -/
theorem reads_independent_of_strategy {α : Type} (g g' : MotorGroup α)
    (hm : g.motors = g'.motors)
    (read : α → Except MotorError ℚ) (flag : α → Except MotorError Bool) :
    g.numericReadOp read = g'.numericReadOp read ∧
    g.boolReadOp flag = g'.boolReadOp flag ∧
    (∃ res, g.numericReadOp read = some (g.motors.length, res)) ∧
    ((∀ x ∈ g.motors, flag x ≠ Except.ok true) →
      ∃ res, g.boolReadOp flag = some (g.motors.length, res)) := by
  refine ⟨by simp [MotorGroup.numericReadOp, hm],
    by simp [MotorGroup.boolReadOp, hm], ?_, ?_⟩
  · obtain ⟨res, hres⟩ := numericRead_total (g.motors.map read)
    exact ⟨res, by simpa using hres⟩
  · intro hno
    have hmap : ∀ o ∈ g.motors.map flag, o ≠ Except.ok true := by
      intro o ho
      obtain ⟨a, ha, rfl⟩ := List.mem_map.mp ho
      exact hno a ha
    have h := boolGo_no_true (g.motors.map flag) hmap [] 0
    simp only [List.nil_append, Nat.zero_add] at h
    by_cases he : errorsOf (g.motors.map flag) = []
    · refine ⟨Except.ok false, ?_⟩
      unfold MotorGroup.boolReadOp boolRead
      rw [h]
      simp [he]
    · refine ⟨Except.error ⟨errorsOf (g.motors.map flag), none⟩, ?_⟩
      unfold MotorGroup.boolReadOp boolRead
      rw [h]
      simp [he, MotorGroupError.new]

/-- Concrete instance of `reads_independent_of_strategy`: one group under each
strategy, identical read outcomes. -/
theorem reads_independent_of_strategy_witness :
    (MotorGroup.mk [5] WriteErrorStrategy.Ignore : MotorGroup Nat).numericReadOp
        (fun _ => Except.ok 3)
      = (MotorGroup.mk [5] WriteErrorStrategy.Stop : MotorGroup Nat).numericReadOp
        (fun _ => Except.ok 3) ∧
    (MotorGroup.mk [5] WriteErrorStrategy.Ignore : MotorGroup Nat).boolReadOp
        (fun _ => Except.error MotorError.Busy)
      = (MotorGroup.mk [5] WriteErrorStrategy.Stop : MotorGroup Nat).boolReadOp
        (fun _ => Except.error MotorError.Busy) ∧
    (∃ res, (MotorGroup.mk [5] WriteErrorStrategy.Ignore : MotorGroup Nat).numericReadOp
        (fun _ => Except.ok 3) = some (1, res)) ∧
    (∃ res, (MotorGroup.mk [5] WriteErrorStrategy.Ignore : MotorGroup Nat).boolReadOp
        (fun _ => Except.error MotorError.Busy) = some (1, res)) := by
  have h := reads_independent_of_strategy
      (MotorGroup.mk [5] WriteErrorStrategy.Ignore)
      (MotorGroup.mk [5] WriteErrorStrategy.Stop) rfl
      (fun _ => Except.ok 3) (fun _ => Except.error MotorError.Busy)
  exact ⟨h.1, h.2.1, by simpa using h.2.2.1, by simpa using h.2.2.2 (by decide)⟩

/-- Claim C8: on any aggregate error satisfying the non-emptiness invariant,
`first` returns the element at index 0 of the error list without failing, and
the lossy conversion to a single `MotorError` yields exactly that first
error. -/
theorem first_is_earliest :
    (∀ (T : Type) (mg : MotorGroupError T) (h : mg.errors ≠ []),
      mg.first = some (mg.errors.head h)) ∧
    (∀ (mg : MotorGroupError Unit), mg.errors ≠ [] → mg.toSingle = mg.first) := by
  constructor
  · intro T mg h
    obtain ⟨errors, result⟩ := mg
    cases errors with
    | nil => exact absurd rfl h
    | cons e rest => simp [MotorGroupError.first]
  · intro mg h
    obtain ⟨errors, result⟩ := mg
    cases errors with
    | nil => exact absurd rfl h
    | cons e rest => simp [MotorGroupError.first, MotorGroupError.toSingle]

/-- Concrete instance of `first_is_earliest`. -/
theorem first_is_earliest_witness :
    (⟨[MotorError.Busy, MotorError.SetGearsetExp], some (7 : ℚ)⟩ :
        MotorGroupError ℚ).first = some MotorError.Busy ∧
    (⟨[MotorError.Port 3], none⟩ : MotorGroupError Unit).toSingle
      = (⟨[MotorError.Port 3], none⟩ : MotorGroupError Unit).first := by
  constructor
  · have h := first_is_earliest.1 ℚ
      ⟨[MotorError.Busy, MotorError.SetGearsetExp], some 7⟩ (by decide)
    simpa using h
  · exact first_is_earliest.2 ⟨[MotorError.Port 3], none⟩ (by decide)

/-- Claim C9: for a group built by `MotorGroup::new` (hence non-empty), the
`unwrap` at the end of `max_voltage` succeeds, and whenever a numeric read
reaches its all-success division the success count it divides by is at
least 1. -/
theorem group_partial_ops_safe {α : Type} (motors : List α) (g : MotorGroup α)
    (hg : MotorGroup.new motors = some g) (mv : α → ℚ)
    (read : α → Except MotorError ℚ) :
    (∃ q, g.maxVoltageOp mv = some q) ∧
    ((readGo (g.motors.map read)).errors = [] →
      1 ≤ (readGo (g.motors.map read)).count) := by
  unfold MotorGroup.new at hg
  split at hg
  · exact Option.noConfusion hg
  · rename_i hemp
    injection hg with hg
    subst hg
    have hne : motors ≠ [] := by
      intro h
      subst h
      simp at hemp
    constructor
    · cases motors with
      | nil => exact absurd rfl hne
      | cons a rest => exact ⟨_, rfl⟩
    · intro herr
      simp only [readGo_eq] at herr ⊢
      have hl := length_eq_success_add_errors (motors.map read)
      rw [herr] at hl
      simp only [List.length_nil, Nat.add_zero, List.length_map] at hl
      have hpos : 0 < motors.length := List.length_pos.mpr hne
      omega

/-- Concrete instance of `group_partial_ops_safe`. -/
theorem group_partial_ops_safe_witness :
    (∃ q, (⟨[2], WriteErrorStrategy.Ignore⟩ : MotorGroup Nat).maxVoltageOp
        (fun _ => (12 : ℚ)) = some q) ∧
    1 ≤ (readGo ((⟨[2], WriteErrorStrategy.Ignore⟩ : MotorGroup Nat).motors.map
        (fun _ => Except.ok (0 : ℚ)))).count := by
  have h := group_partial_ops_safe [2] ⟨[2], WriteErrorStrategy.Ignore⟩ rfl
      (fun _ => (12 : ℚ)) (fun _ => Except.ok (0 : ℚ))
  exact ⟨h.1, h.2 (by decide)⟩

/-- Claim C10: every aggregate error a write operation returns carries no
result value — the write path constructs errors only through `new`, which
sets `result` to `None`. -/
theorem write_errors_carry_no_result (strategy : WriteErrorStrategy)
    (outcomes : List (Option MotorError)) (n : Nat) (mg : MotorGroupError Unit)
    (h : writeOp strategy outcomes = some (n, Except.error mg)) :
    mg.result = none := by
  simp only [writeOp] at h
  split at h
  · simp at h
  · rename_i hne
    simp only [MotorGroupError.new, if_neg hne, Option.map_some'] at h
    injection h with h
    have hsnd := congrArg Prod.snd h
    simp only at hsnd
    injection hsnd with hsnd
    rw [← hsnd]

/-- Concrete instance of `write_errors_carry_no_result`. -/
theorem write_errors_carry_no_result_witness :
    (⟨[MotorError.Busy], none⟩ : MotorGroupError Unit).result = none :=
  write_errors_carry_no_result WriteErrorStrategy.Ignore [some MotorError.Busy] 1
    ⟨[MotorError.Busy], none⟩ (by decide)
